import Mathlib

/-!
Verification of the polar-motion correction module
(`gmeterpy/corrections/polar_motion.py`).

The module has two functions:

* `polar_motion_correction(xp, yp, lat, lon)` — pure closed-form pole-tide
  formula over numpy scalars/arrays;
* `get_iers_polar_motion(jd)` — opens the (auto-downloading) astropy
  `IERS_Auto` table, interpolates pole coordinates at the query epochs, and
  emits one aggregated warning when any returned point is not final.

Floating-point numpy arithmetic is embedded as exact real arithmetic (`ℝ`);
numpy's 1-D broadcasting is modelled by `NpVal` (scalar or vector).
The astropy table interpolation (`iers_table.pm_xy`) is an external
collaborator and is modelled from the spec (§4.1–4.2).  Effects of
`get_iers_polar_motion` (table acquisition, warnings) are made explicit as an
`Effect` trace.
-/

namespace Gmeterpy

/-- `np.radians(d)`: degrees to radians, `d * (pi / 180)`. -/
noncomputable def radians (d : ℝ) : ℝ := d * (Real.pi / 180)

/-- Scalar embedding of `polar_motion_correction` from
`gmeterpy/corrections/polar_motion.py`, translated line by line:
`a = 6378136`, `omega = 7292115e-11`, arcsec→rad conversion of `xp`, `yp`
(divide by 3600 then `np.radians`), degree→rad conversion of `lat`, `lon`,
`coords = 2*sin(lat)*cos(lat)*(xp*cos(lon) - yp*sin(lon))`, result
`-1.164 * omega**2 * a * coords`. -/
noncomputable def polar_motion_correction (xp yp lat lon : ℝ) : ℝ :=
  let a : ℝ := 6378136
  let omega : ℝ := 7292115e-11
  let xp := radians (xp / 3600)
  let yp := radians (yp / 3600)
  let lat := radians lat
  let lon := radians lon
  let coords := 2 * Real.sin lat * Real.cos lat *
    (xp * Real.cos lon - yp * Real.sin lon)
  let result := -1.164 * omega ^ 2 * a * coords
  result

/-- The correction formula as the spec words it (§4.3 algorithm steps):
convert `xp`, `yp` from arcseconds to radians; convert `lat`, `lon` to
radians; `coords = 2·sin(lat)·cos(lat)·(xp·cos(lon) − yp·sin(lon))`; return
`−δ·ω²·a·coords` with `δ = 1.164`, `ω = 7.292115e-5 rad/s`, `a = 6378136 m`.
Stated separately from `polar_motion_correction` so the code/spec agreement
is a theorem, not a definition. -/
noncomputable def polar_motion_correction_spec (xp yp lat lon : ℝ) : ℝ :=
  let δ : ℝ := 1.164
  let ω : ℝ := 7.292115e-5
  let a : ℝ := 6378136
  let xpr := radians (xp / 3600)
  let ypr := radians (yp / 3600)
  let latr := radians lat
  let lonr := radians lon
  let coords := 2 * Real.sin latr * Real.cos latr *
    (xpr * Real.cos lonr - ypr * Real.sin lonr)
  let result := -(δ * ω ^ 2 * a * coords)
  result

/-- A numpy value of the shapes this module uses: a float scalar or a 1-D
float array.  Floats are embedded as exact reals. -/
inductive NpVal where
  | scalar (x : ℝ)
  | vec (xs : List ℝ)

/-- Element-wise application of a unary ufunc or of arithmetic with a python
scalar (`np.sin`, `np.radians`, `2 * arr`, …): such operations never fail and
preserve shape. -/
noncomputable def npMap (f : ℝ → ℝ) : NpVal → NpVal
  | .scalar x => .scalar (f x)
  | .vec xs => .vec (xs.map f)

/-- numpy binary broadcasting restricted to these shapes: a scalar combines
with any shape; two arrays combine element-wise when their lengths agree and
raise otherwise (modelled as `none`). -/
noncomputable def npBroadcast (f : ℝ → ℝ → ℝ) : NpVal → NpVal → Option NpVal
  | .scalar a, .scalar b => some (.scalar (f a b))
  | .scalar a, .vec v => some (.vec (v.map fun x => f a x))
  | .vec v, .scalar b => some (.vec (v.map fun x => f x b))
  | .vec v, .vec w =>
      if v.length = w.length then some (.vec (List.zipWith f v w)) else none

/-- `polar_motion_correction` over numpy scalars/arrays, following the
source's expression tree operation by operation: the unit conversions are
unary ufuncs, `2 * np.sin(lat)`, `... * np.cos(lat)`, the two products with
the pole coordinates, the subtraction and the final product with
`coords` are numpy broadcasts, and the prefactor
`-1.164 * omega**2 * a` is a python scalar. -/
noncomputable def polar_motion_correction_np (xp yp lat lon : NpVal) :
    Option NpVal :=
  let k : ℝ := -1.164 * (7292115e-11 : ℝ) ^ 2 * 6378136
  let xpr := npMap (fun v => radians (v / 3600)) xp
  let ypr := npMap (fun v => radians (v / 3600)) yp
  let latr := npMap radians lat
  let lonr := npMap radians lon
  do
    let sc ← npBroadcast (· * ·) (npMap (fun v => 2 * Real.sin v) latr)
      (npMap Real.cos latr)
    let tx ← npBroadcast (· * ·) xpr (npMap Real.cos lonr)
    let ty ← npBroadcast (· * ·) ypr (npMap Real.sin lonr)
    let d ← npBroadcast (· - ·) tx ty
    let coords ← npBroadcast (· * ·) sc d
    pure (npMap (fun v => k * v) coords)

/-- Finality of a pole-coordinate record (spec §3).  `final` corresponds to
astropy's `FROM_IERS_B` status, the value `get_iers_polar_motion` tests
against; the other two are the non-final statuses. -/
inductive Finality where
  | final
  | predicted
  | unknown
deriving DecidableEq

/-- Confidence rank of a finality: `final` is most confident. -/
def Finality.rank : Finality → Nat
  | .final => 2
  | .predicted => 1
  | .unknown => 0

/-- Minimum-confidence combination of two finalities: a non-final bracketing
record dominates a final one (spec §4.1). -/
def minConfidence (a b : Finality) : Finality :=
  if a.rank ≤ b.rank then a else b

/-- One record of the Earth-orientation table (spec §3): epoch (a time value
such as a Julian Date), pole coordinates in arcseconds, finality. -/
structure EOPRecord where
  epoch : ℝ
  xp : ℝ
  yp : ℝ
  finality : Finality

/-- Modelled from the spec: scan of the table records for the scalar lookup,
starting from record `r` with the remaining records `rs`, for a query epoch
`t` with `r.epoch ≤ t` already established by the caller.  Exact epoch match
returns the record's values and finality unchanged; an epoch strictly
between two consecutive records interpolates `xp` and `yp` linearly and
combines the finalities by minimum confidence; an epoch beyond the last
record returns the last record's values with finality forced to
`predicted` (spec §4.1). -/
noncomputable def lookupFrom (r : EOPRecord) :
    List EOPRecord → ℝ → ℝ × ℝ × Finality
  | [], t =>
      if t = r.epoch then (r.xp, r.yp, r.finality)
      else (r.xp, r.yp, .predicted)
  | s :: rest, t =>
      if t = r.epoch then (r.xp, r.yp, r.finality)
      else if t < s.epoch then
        let f := (t - r.epoch) / (s.epoch - r.epoch)
        (r.xp + f * (s.xp - r.xp), r.yp + f * (s.yp - r.yp),
          minConfidence r.finality s.finality)
      else lookupFrom s rest t

/-- Modelled from the spec: scalar lookup in a non-empty table with first
record `r` and remaining records `rs`.  An epoch before the first record
returns the first record's values with finality forced to `predicted`
(spec §4.1 extrapolation). -/
noncomputable def lookup1 (r : EOPRecord) (rs : List EOPRecord) (t : ℝ) :
    ℝ × ℝ × Finality :=
  if t < r.epoch then (r.xp, r.yp, .predicted) else lookupFrom r rs t

/-- Modelled from the spec: `lookup(epoch)` of §4.1.  Fails
(`DataUnavailable`, modelled as `none`) only when the table holds zero
records; otherwise extrapolation at the boundaries never fails. -/
noncomputable def lookup : List EOPRecord → ℝ → Option (ℝ × ℝ × Finality)
  | [], _ => none
  | r :: rs, t => some (lookup1 r rs t)

/-- Modelled from the spec: astropy's
`iers_table.pm_xy(jd, return_status=True)` — the external collaborator that
resolves one or many query epochs element-wise against the table, returning
pole coordinates in arcseconds together with the per-point status
(spec §4.1–4.2, "interpolation preserves shape: scalar→scalar,
sequence→same-length sequence, element-wise"). -/
noncomputable def pm_xy (table : List EOPRecord) :
    NpVal → Option (NpVal × NpVal × List Finality)
  | .scalar t =>
      (lookup table t).map fun p => (.scalar p.1, .scalar p.2.1, [p.2.2])
  | .vec ts =>
      (ts.mapM (lookup table)).map fun ps =>
        (.vec (ps.map fun p => p.1), .vec (ps.map fun p => p.2.1),
          ps.map fun p => p.2.2)

/-- An observable effect of `get_iers_polar_motion`: opening the
`IERS_Auto` table (which, per the source's own docstring, automatically
downloads IERS data), or emitting a `warnings.warn` advisory. -/
inductive Effect where
  | openIersTable
  | warn (msg : String)
deriving DecidableEq

/-- Whether an effect is a warning advisory. -/
def Effect.isWarn : Effect → Bool
  | .warn _ => true
  | _ => false

/-- Embedding of `get_iers_polar_motion(jd)`, translated statement by
statement with its effects made explicit: `iers.IERS_Auto.open()` is the
`openIersTable` effect reading the ambient table (passed as the `table`
argument); `pm_xy(jd, return_status=True)` resolves the epochs; the single
aggregated `warnings.warn("Some pole coordinates are not final.")` is
emitted iff `np.any(status != iers.FROM_IERS_B)`, i.e. iff any resolved
point is not `final`; the pole coordinates are returned unchanged. -/
noncomputable def get_iers_polar_motion (table : List EOPRecord)
    (jd : NpVal) : Option ((NpVal × NpVal) × List Effect) := do
  let (pm_x, pm_y, status) ← pm_xy table jd
  let warns : List Effect :=
    if status.any (fun s => s ≠ Finality.final) then
      [Effect.warn "Some pole coordinates are not final."]
    else []
  pure ((pm_x, pm_y), Effect.openIersTable :: warns)

/-- The process-wide astropy IERS configuration the module touches
(`astropy.utils.iers.conf`): maximum auto-download age in days, the
auto-download toggle (a tri-state python value, `None` when unset), the
auto-download URL, the remote timeout in seconds. -/
structure IersConf where
  auto_max_age : Option ℝ
  auto_download : Option Bool
  iers_auto_url : String
  remote_timeout : ℝ

/-- The IERS A URL constant of the module. -/
def IERS_A_URL : String :=
  "ftp://ftp.iers.org/products/eop/rapid/standard/finals2000A.all"

/-- Embedding of the module-level statements run at import time
(`polar_motion.py` lines 14–18): they overwrite four fields of the global
`iers.conf`, whatever values other users of astropy had set. -/
def module_import (c : IersConf) : IersConf :=
  { c with
    auto_max_age := some 10
    auto_download := none
    iers_auto_url := IERS_A_URL
    remote_timeout := 60 }

end Gmeterpy

namespace Gmeterpy

/-- C1: `polar_motion_correction` computes exactly the spec's formula:
`−δ·ω²·a·coords` with `δ = 1.164`, `ω = 7.292115e-5`, `a = 6378136` and
`coords = 2·sin(lat)·cos(lat)·(xp_rad·cos(lon) − yp_rad·sin(lon))`, the pole
coordinates converted arcsec→rad by dividing by 3600 and then converting
degrees to radians. -/
theorem polar_motion_correction_eq_spec (xp yp lat lon : ℝ) :
    polar_motion_correction xp yp lat lon =
      polar_motion_correction_spec xp yp lat lon := by
  simp only [polar_motion_correction, polar_motion_correction_spec]
  norm_num

/-- C6: with zero pole coordinates the correction vanishes for every valid
latitude (in `[-90, 90]`) and every longitude. -/
theorem polar_motion_correction_zero_pole (lat lon : ℝ)
    (hlo : -90 ≤ lat) (hhi : lat ≤ 90) :
    polar_motion_correction 0 0 lat lon = 0 := by
  simp only [polar_motion_correction, radians]
  ring

/-- Witness for C6 at `lat = 45`, `lon = 10`. -/
theorem polar_motion_correction_zero_pole_witness :
    polar_motion_correction 0 0 45 10 = 0 :=
  polar_motion_correction_zero_pole 45 10 (by norm_num) (by norm_num)

/-- C7: at the poles (`lat = ±90`) the correction is exactly zero for any
pole coordinates and longitude, because `cos(±π/2) = 0` kills the
`sin(lat)·cos(lat)` factor — the definition has no special case. -/
theorem polar_motion_correction_pole_zero (xp yp lon : ℝ) :
    polar_motion_correction xp yp 90 lon = 0 ∧
      polar_motion_correction xp yp (-90) lon = 0 := by
  have h90 : radians 90 = Real.pi / 2 := by
    unfold radians; ring
  have hm90 : radians (-90) = -(Real.pi / 2) := by
    unfold radians; ring
  constructor
  · simp only [polar_motion_correction]
    rw [h90, Real.cos_pi_div_two]
    ring
  · simp only [polar_motion_correction]
    rw [hm90, Real.cos_neg, Real.cos_pi_div_two]
    ring

/-- C9: the correction is odd in the pole coordinates and odd in latitude:
negating `(xp, yp)` negates the result, and negating `lat` negates the
result. -/
theorem polar_motion_correction_odd (xp yp lat lon : ℝ) :
    polar_motion_correction (-xp) (-yp) lat lon =
        -polar_motion_correction xp yp lat lon ∧
      polar_motion_correction xp yp (-lat) lon =
        -polar_motion_correction xp yp lat lon := by
  have hneg : radians (-lat) = -radians lat := by
    unfold radians; ring
  constructor
  · simp only [polar_motion_correction, radians]
    ring
  · simp only [polar_motion_correction]
    rw [hneg, Real.sin_neg, Real.cos_neg]
    ring

/-- C4: the vectorized correction is pure and deterministic (identical
inputs give identical results), never fails on scalars, and operates
element-wise: equal-length arrays give the element-wise scalar correction,
and scalars broadcast against arrays. -/
theorem polar_motion_correction_np_pure :
    (∀ v₁ v₂ v₃ v₄ : NpVal,
      polar_motion_correction_np v₁ v₂ v₃ v₄ =
        polar_motion_correction_np v₁ v₂ v₃ v₄) ∧
    (∀ x y la lo : ℝ,
      polar_motion_correction_np (.scalar x) (.scalar y) (.scalar la)
          (.scalar lo) =
        some (.scalar (polar_motion_correction x y la lo))) ∧
    (∀ xs ys ls os : List ℝ, ys.length = xs.length → ls.length = xs.length →
      os.length = xs.length →
      polar_motion_correction_np (.vec xs) (.vec ys) (.vec ls) (.vec os) =
        some (.vec (((xs.zip ys).zip (ls.zip os)).map
          fun p => polar_motion_correction p.1.1 p.1.2 p.2.1 p.2.2))) ∧
    (∀ (x y : ℝ) (ls os : List ℝ), os.length = ls.length →
      polar_motion_correction_np (.scalar x) (.scalar y) (.vec ls)
          (.vec os) =
        some (.vec ((ls.zip os).map
          fun p => polar_motion_correction x y p.1 p.2))) := by
  refine ⟨fun _ _ _ _ => rfl, fun x y la lo => rfl, ?_, ?_⟩
  · intro xs ys ls os hy hl ho
    simp [polar_motion_correction_np, npMap, npBroadcast, hy, hl, ho]
    apply List.ext_getElem
    · simp [hy, hl, ho]
    · intro i h1 h2
      simp only [List.getElem_zipWith, List.getElem_map, List.getElem_zip]
      simp only [polar_motion_correction]
      ring
  · intro x y ls os ho
    simp [polar_motion_correction_np, npMap, npBroadcast, ho]
    apply List.ext_getElem
    · simp [ho]
    · intro i h1 h2
      simp only [List.getElem_zipWith, List.getElem_map, List.getElem_zip]
      simp only [polar_motion_correction]
      ring

/-- Witness for C4: equal-length one-element arrays evaluate to the
element-wise scalar correction. -/
theorem polar_motion_correction_np_pure_witness :
    polar_motion_correction_np (.vec [1]) (.vec [2]) (.vec [45]) (.vec [0]) =
      some (.vec (((([1] : List ℝ).zip [2]).zip
          (([45] : List ℝ).zip [0])).map
        fun p => polar_motion_correction p.1.1 p.1.2 p.2.1 p.2.2)) :=
  polar_motion_correction_np_pure.2.2.1 [1] [2] [45] [0] rfl rfl rfl

/-- C2 counterexample: at the out-of-range latitude `135°` the function is
not rejected — it returns the plain formula value
`1.164·ω²·a·(π/648000) > 0`.  In particular the result is a genuine number
and differs from the value at the clamped latitude `90°`, which is `0`: the
code neither raises nor clamps. -/
theorem polar_motion_correction_invalid_latitude_returns :
    polar_motion_correction 1 0 135 0 =
        1.164 * (7292115e-11 : ℝ) ^ 2 * 6378136 * (Real.pi / 648000) ∧
      0 < polar_motion_correction 1 0 135 0 ∧
      polar_motion_correction 1 0 90 0 = 0 := by
  have h135 : (135 : ℝ) * (Real.pi / 180) = Real.pi - Real.pi / 4 := by
    ring
  have heq : polar_motion_correction 1 0 135 0 =
      1.164 * (7292115e-11 : ℝ) ^ 2 * 6378136 * (Real.pi / 648000) := by
    simp only [polar_motion_correction, radians]
    rw [h135, Real.sin_pi_sub, Real.cos_pi_sub, Real.sin_pi_div_four,
      Real.cos_pi_div_four]
    have hs : Real.sqrt 2 ^ 2 = 2 := Real.sq_sqrt (by norm_num)
    norm_num
    nlinarith [hs, Real.pi_pos]
  refine ⟨heq, by rw [heq]; positivity, ?_⟩
  have h90 : (90 : ℝ) * (Real.pi / 180) = Real.pi / 2 := by ring
  simp only [polar_motion_correction, radians]
  rw [h90, Real.cos_pi_div_two]
  ring

/-- C2 amended: `polar_motion_correction` performs no latitude validation:
for a latitude outside `[-90, 90]` it still computes and returns the plain
formula value — there is no rejection and no clamping. -/
theorem polar_motion_correction_no_latitude_validation
    (xp yp lat lon : ℝ) (h : lat < -90 ∨ 90 < lat) :
    polar_motion_correction xp yp lat lon =
      -1.164 * (7292115e-11 : ℝ) ^ 2 * 6378136 *
        (2 * Real.sin (radians lat) * Real.cos (radians lat) *
          (radians (xp / 3600) * Real.cos (radians lon) -
            radians (yp / 3600) * Real.sin (radians lon))) := by
  simp only [polar_motion_correction]

/-- Witness for the amended C2 at the out-of-range latitude `100°`. -/
theorem polar_motion_correction_no_latitude_validation_witness :
    polar_motion_correction 2 3 100 40 =
      -1.164 * (7292115e-11 : ℝ) ^ 2 * 6378136 *
        (2 * Real.sin (radians 100) * Real.cos (radians 100) *
          (radians (2 / 3600) * Real.cos (radians 40) -
            radians (3 / 3600) * Real.sin (radians 40))) :=
  polar_motion_correction_no_latitude_validation 2 3 100 40
    (Or.inr (by norm_num))

/-- Looking every epoch of a list up in a non-empty table never fails and
returns the scalar lookups in order. -/
theorem mapM_lookup_cons (r : EOPRecord) (rs : List EOPRecord)
    (ts : List ℝ) :
    ts.mapM (lookup (r :: rs)) = some (ts.map fun t => lookup1 r rs t) := by
  induction ts with
  | nil => rfl
  | cons t ts ih => rw [List.mapM_cons, ih]; simp [lookup]

/-- C3: whenever the pole-coordinate resolution succeeds, the call returns
the numeric `xp`, `yp` unchanged; if at least one resolved point is not
final, exactly one aggregated warning advisory is emitted for the whole
call, and if every point is final no advisory is emitted. -/
theorem get_iers_polar_motion_advisory (table : List EOPRecord)
    (jd : NpVal) (px py : NpVal) (sts : List Finality)
    (h : pm_xy table jd = some (px, py, sts)) :
    ∃ tr, get_iers_polar_motion table jd = some ((px, py), tr) ∧
      ((∃ s ∈ sts, s ≠ Finality.final) →
        (tr.filter Effect.isWarn).length = 1) ∧
      ((∀ s ∈ sts, s = Finality.final) →
        tr.filter Effect.isWarn = []) := by
  by_cases hn : ∃ s ∈ sts, s ≠ Finality.final
  · refine ⟨[Effect.openIersTable,
      Effect.warn "Some pole coordinates are not final."], ?_, ?_, ?_⟩
    · simp [get_iers_polar_motion, h, hn]
    · intro _
      simp [List.filter, Effect.isWarn]
    · intro hall
      obtain ⟨s, hs, hsne⟩ := hn
      exact absurd (hall s hs) hsne
  · refine ⟨[Effect.openIersTable], ?_, ?_, ?_⟩
    · simp [get_iers_polar_motion, h, hn]
    · intro hex
      exact absurd hex hn
    · intro _
      simp [List.filter, Effect.isWarn]

/-- Witness for C3: a one-record table whose record is `predicted` at an
exactly matching epoch: the call succeeds, returns the record's
coordinates, and emits exactly one advisory. -/
theorem get_iers_polar_motion_advisory_witness :
    ∃ tr, get_iers_polar_motion [⟨0, 1, 2, Finality.predicted⟩]
        (.scalar 0) = some ((.scalar 1, .scalar 2), tr) ∧
      ((∃ s ∈ [Finality.predicted], s ≠ Finality.final) →
        (tr.filter Effect.isWarn).length = 1) ∧
      ((∀ s ∈ [Finality.predicted], s = Finality.final) →
        tr.filter Effect.isWarn = []) :=
  get_iers_polar_motion_advisory [⟨0, 1, 2, Finality.predicted⟩]
    (.scalar 0) (.scalar 1) (.scalar 2) [Finality.predicted]
    (by simp [pm_xy, lookup, lookup1, lookupFrom])

/-- C5 counterexample: table acquisition is not injected from outside —
already on a concrete call the effect trace of `get_iers_polar_motion`
contains the `openIersTable` acquisition effect (the source calls
`iers.IERS_Auto.open()` inside itself, and its docstring states this
"will automatically download IERS data"). -/
theorem get_iers_polar_motion_opens_table :
    get_iers_polar_motion [⟨0, 3, 4, Finality.final⟩] (.scalar 0) =
      some ((.scalar 3, .scalar 4), [Effect.openIersTable]) := by
  simp [get_iers_polar_motion, pm_xy, lookup, lookup1, lookupFrom]

/-- C5 amended: `polar_motion_correction` is a pure function of its
arguments, and no query mutates the table, but `get_iers_polar_motion`
acquires the IERS table internally: every successful call's effect trace
begins with the `openIersTable` (potentially auto-downloading) acquisition
effect. -/
theorem get_iers_polar_motion_acquires_internally (table : List EOPRecord)
    (jd : NpVal) (res : (NpVal × NpVal) × List Effect)
    (h : get_iers_polar_motion table jd = some res) :
    res.2.head? = some Effect.openIersTable := by
  obtain ⟨resv, rese⟩ := res
  cases hpm : pm_xy table jd with
  | none => simp [get_iers_polar_motion, hpm] at h
  | some trip =>
    obtain ⟨px, py, sts⟩ := trip
    simp [get_iers_polar_motion, hpm] at h
    rw [← h.2]
    rfl

/-- Witness for the amended C5 on a concrete one-record table. -/
theorem get_iers_polar_motion_acquires_internally_witness :
    (((NpVal.scalar 5, NpVal.scalar 6), [Effect.openIersTable]) :
        (NpVal × NpVal) × List Effect).2.head? =
      some Effect.openIersTable :=
  get_iers_polar_motion_acquires_internally [⟨1, 5, 6, Finality.final⟩]
    (.scalar 1) ((.scalar 5, .scalar 6), [Effect.openIersTable])
    (by simp [get_iers_polar_motion, pm_xy, lookup, lookup1, lookupFrom])

/-- C8: on a non-empty table, resolving a sequence of `N` epochs succeeds
and returns `xp` and `yp` vectors that are exactly the element-wise scalar
lookups, in input order (hence of length `N`); a scalar epoch yields scalar
`xp`, `yp`. -/
theorem get_iers_polar_motion_shape (r : EOPRecord) (rs : List EOPRecord) :
    (∀ epochs : List ℝ,
      (get_iers_polar_motion (r :: rs) (.vec epochs)).map Prod.fst =
        some (.vec (epochs.map fun t => (lookup1 r rs t).1),
              .vec (epochs.map fun t => (lookup1 r rs t).2.1))) ∧
    (∀ t : ℝ,
      (get_iers_polar_motion (r :: rs) (.scalar t)).map Prod.fst =
        some (.scalar (lookup1 r rs t).1,
              .scalar (lookup1 r rs t).2.1)) := by
  constructor
  · intro epochs
    have h1 : pm_xy (r :: rs) (.vec epochs) =
        some (.vec (epochs.map fun t => (lookup1 r rs t).1),
              .vec (epochs.map fun t => (lookup1 r rs t).2.1),
              epochs.map fun t => (lookup1 r rs t).2.2) := by
      simp only [pm_xy]
      rw [mapM_lookup_cons]
      simp [List.map_map, Function.comp]
    simp [get_iers_polar_motion, h1]
  · intro t
    simp [get_iers_polar_motion, pm_xy, lookup]

/-- C10: importing the module overwrites four fields of the process-wide
astropy IERS configuration — `auto_max_age := 10`, `auto_download := None`,
the auto-download URL to the IERS `finals2000A.all` FTP endpoint, and
`remote_timeout := 60` — whatever configuration any other user of the
library had, and it does mutate some configurations. -/
theorem module_import_sets_global_iers_conf :
    (∀ c : IersConf,
      (module_import c).auto_max_age = some 10 ∧
      (module_import c).auto_download = none ∧
      (module_import c).iers_auto_url =
        "ftp://ftp.iers.org/products/eop/rapid/standard/finals2000A.all" ∧
      (module_import c).remote_timeout = 60) ∧
    ∃ c : IersConf, module_import c ≠ c := by
  refine ⟨fun c => ⟨rfl, rfl, rfl, rfl⟩, ⟨none, none, "", 0⟩, ?_⟩
  intro h
  have h60 : (60 : ℝ) = 0 := congrArg IersConf.remote_timeout h
  norm_num at h60

end Gmeterpy
